import Mathlib

/-!
# Questron GameRoom — shallow embedding

A shallow embedding of the room session actor in `worker/src/GameRoom.ts`
(the Durable Object `GameRoom`).  JavaScript objects used as string-keyed
maps become association lists (insertion ordered, as JS objects are);
millisecond timestamps become `Int`; the floating-point score arithmetic
becomes exact rational arithmetic over `ℚ` with explicit `Int.floor`
(`Math.floor`) and `round` (`Math.round`); fallible lookups return
`Option`.  `Date.now()` and `crypto.randomUUID()` are passed in as
explicit parameters.  Outbound WebSocket traffic is modelled as a list of
`Emit` values returned by each handler, and the Durable Object storage
(the persisted `gs` snapshot plus the single scheduled alarm) as a `Room`
record threaded through the handlers.
-/

namespace Questron

/-- `Player` record from GameRoom.ts. -/
structure Player where
  name : String
  score : Int
  answeredAtMs : Option Int
  selectedOptionId : Option String
  lastCorrect : Bool
  delta : Int
  streak : Nat
  rejoinToken : String
deriving Repr, DecidableEq

/-- `QuizOption` record from GameRoom.ts (shape/color presentation fields omitted). -/
structure QuizOption where
  id : String
  label : String
deriving Repr, DecidableEq

/-- `QuizQuestion` record from GameRoom.ts (`imageRef` handled like `imageUrl`, omitted). -/
structure QuizQuestion where
  id : String
  text : String
  imageUrl : Option String
  timeLimitSeconds : Int
  options : List QuizOption
  correctOptionIds : List String
  index : Nat
deriving Repr, DecidableEq

/-- `RoundState` record from GameRoom.ts. -/
structure RoundState where
  startMs : Int
  endMs : Int
  awaiting : List String
  msRemaining : Option Int
deriving Repr, DecidableEq

/-- `GameState` record from GameRoom.ts.  The JS records
`players : Record<wsTag, Player>` and `disconnectedPlayers : Record<name, Player>`
are association lists in insertion order. -/
structure GameState where
  id : String
  title : String
  questions : List QuizQuestion
  players : List (String × Player)
  disconnectedPlayers : List (String × Player)
  started : Bool
  paused : Bool
  currentIndex : Int
  round : Option RoundState
  hostTag : Option String
  hostSecret : String
deriving Repr, DecidableEq

/-- Durable Object storage as seen by the handlers: the persisted `gs`
snapshot (`none` after `deleteAll` or before `init`) and the single
scheduled alarm (`none` after `deleteAlarm`). -/
structure Room where
  gs : Option GameState
  alarmAt : Option Int
deriving Repr, DecidableEq

-- ── Association-list helpers (JS object-as-map operations) ──────────────

/-- JS property read `m[k]`. -/
def alookup {α : Type} : List (String × α) → String → Option α
  | [], _ => none
  | (k1, v) :: rest, k => if k1 = k then some v else alookup rest k

/-- JS property write `m[k] = v`: overwrite in place if present, append otherwise. -/
def aupsert {α : Type} : List (String × α) → String → α → List (String × α)
  | [], k, v => [(k, v)]
  | (k1, v1) :: rest, k, v =>
      if k1 = k then (k, v) :: rest else (k1, v1) :: aupsert rest k v

/-- JS `delete m[k]`. -/
def aerase {α : Type} (m : List (String × α)) (k : String) : List (String × α) :=
  m.filter (fun kv => kv.1 ≠ k)

/-- JS `Object.values(m)`. -/
def avalues {α : Type} (m : List (String × α)) : List α :=
  m.map Prod.snd

/-- JS `Object.keys(m)`. -/
def akeys {α : Type} (m : List (String × α)) : List String :=
  m.map Prod.fst

theorem alookup_aupsert_self {α : Type} (m : List (String × α)) (k : String) (v : α) :
    alookup (aupsert m k v) k = some v := by
  induction m with
  | nil => simp [aupsert, alookup]
  | cons kv rest ih =>
      obtain ⟨k1, v1⟩ := kv
      by_cases h : k1 = k
      · simp [aupsert, alookup, h]
      · simp [aupsert, alookup, h, ih]

theorem alookup_aupsert_ne {α : Type} (m : List (String × α)) (k t : String) (v : α)
    (h : t ≠ k) : alookup (aupsert m k v) t = alookup m t := by
  induction m with
  | nil => simp [aupsert, alookup, Ne.symm h]
  | cons kv rest ih =>
      obtain ⟨k1, v1⟩ := kv
      by_cases h1 : k1 = k
      · subst h1
        simp [aupsert, alookup, Ne.symm h]
      · simp only [aupsert, if_neg h1, alookup]
        by_cases h2 : k1 = t
        · simp [h2]
        · simp [h2, ih]

theorem alookup_aerase_self {α : Type} (m : List (String × α)) (k : String) :
    alookup (aerase m k) k = none := by
  induction m with
  | nil => simp [aerase, alookup]
  | cons kv rest ih =>
      obtain ⟨k1, v1⟩ := kv
      by_cases h : k1 = k
      · simpa [aerase, h] using ih
      · simpa [aerase, alookup, h] using ih

theorem alookup_aerase_ne {α : Type} (m : List (String × α)) (k t : String)
    (h : t ≠ k) : alookup (aerase m k) t = alookup m t := by
  induction m with
  | nil => simp [aerase, alookup]
  | cons kv rest ih =>
      obtain ⟨k1, v1⟩ := kv
      by_cases h1 : k1 = k
      · subst h1
        simpa [aerase, alookup, Ne.symm h] using ih
      · by_cases h2 : k1 = t
        · subst h2
          simp [aerase, alookup, h1]
        · simpa [aerase, alookup, h1, h2] using ih

theorem alookup_map {α β : Type} (f : α → β) (m : List (String × α)) (t : String) :
    alookup (m.map (fun kv => (kv.1, f kv.2))) t = (alookup m t).map f := by
  induction m with
  | nil => simp [alookup]
  | cons kv rest ih =>
      obtain ⟨k1, v1⟩ := kv
      by_cases h : k1 = t
      · simp [alookup, h]
      · simp [alookup, h, ih]

-- ── Outbound messages ───────────────────────────────────────────────────

/-- Leaderboard entry produced by `getLeaderboard`. -/
structure LBEntry where
  name : String
  score : Int
  lastCorrect : Bool
  delta : Int
  streak : Nat
deriving Repr, DecidableEq

/-- The `question:show` payload built in `startQuestion` — the "safe"
projection of a `QuizQuestion`, with `correctOptionIds` excluded. -/
structure SafeQuestion where
  id : String
  index : Int
  total : Nat
  text : String
  imageUrl : Option String
  imageData : Option String
  timeLimitSeconds : Int
  options : List QuizOption
deriving Repr, DecidableEq

/-- Outbound WebSocket event payloads (the subset of event types the
modelled handlers emit). -/
inductive Msg where
  | lobbyUpdate (players : List String) (gameId : String) (title : String)
  | gameStarted (title : String)
  | questionShow (q : SafeQuestion)
  | playerLocked (optionId : Option String)
  | roundProgress (answeredCount : Nat) (totalCount : Nat)
  | questionReveal (correctOptionIds : List String) (index : Int) (total : Nat)
      (leaderboard : List LBEntry) (counts : List Nat)
      (playerChoices : List (String × List String)) (percentCorrect : Int)
      (fastestName : Option String)
  | hostCanAdvance
  | gamePaused (msRemaining : Int)
  | gameResumed (msRemaining : Int)
  | gameCancelled (reason : String)
  | gameOver (leaderboard : List LBEntry)
deriving Repr, DecidableEq

/-- Delivery target of an outbound message: `broadcast` vs `toTag`. -/
inductive Target where
  | all
  | toTag (t : String)
deriving Repr, DecidableEq

/-- One outbound send. -/
structure Emit where
  target : Target
  msg : Msg
deriving Repr, DecidableEq

/-- `toHost`: sends to the host tag only when one is bound. -/
def toHost (state : GameState) (m : Msg) : List Emit :=
  match state.hostTag with
  | some h => [⟨Target.toTag h, m⟩]
  | none => []

/-- `getLeaderboard`: players sorted descending by score.  JS
`Array.prototype.sort` is stable, so we insert each entry after all
entries with a score at least as large. -/
def insertByScore (e : LBEntry) : List LBEntry → List LBEntry
  | [] => [e]
  | x :: xs => if x.score < e.score then e :: x :: xs else x :: insertByScore e xs

def getLeaderboard (state : GameState) : List LBEntry :=
  ((avalues state.players).map
      (fun p => LBEntry.mk p.name p.score p.lastCorrect p.delta p.streak)).foldl
    (fun acc e => insertByScore e acc) []

/-- `broadcastLobby`. -/
def broadcastLobby (state : GameState) : Emit :=
  ⟨Target.all, Msg.lobbyUpdate ((avalues state.players).map Player.name) state.id state.title⟩

-- ── Scoring (endRound per-player loop) ──────────────────────────────────

/-- `state.questions[state.currentIndex]` — JS indexing, `undefined` when
out of range (negative or past the end). -/
def questionAt (state : GameState) : Option QuizQuestion :=
  if 0 ≤ state.currentIndex then state.questions.get? state.currentIndex.toNat else none

/-- The per-player scoring step of `endRound` (GameRoom.ts lines 551-569).
The JS float arithmetic `Math.floor(500 + 500 * (remaining / timeLimit))`,
the streak multiplier `min(1.5, 1.0 + (streak - 1) * 0.1)` and
`Math.floor(base * streakMult)` are modelled exactly over `ℚ`. -/
def scorePlayer (q : QuizQuestion) (endMs : Int) (p : Player) : Player :=
  let correct : Bool :=
    match p.selectedOptionId with
    | some oid => q.correctOptionIds.contains oid
    | none => false
  match p.answeredAtMs with
  | some t =>
      if correct then
        let streak : Nat := p.streak + 1
        let timeLimit : ℚ := (q.timeLimitSeconds : ℚ) * 1000
        let remaining : ℚ := ((max 0 (endMs - t) : Int) : ℚ)
        let base : Int := Int.floor ((500 : ℚ) + 500 * (remaining / timeLimit))
        let streakMult : ℚ :=
          if 2 ≤ streak then min ((3 : ℚ)/2) (1 + ((streak : ℚ) - 1) * ((1 : ℚ)/10)) else 1
        let delta : Int := Int.floor ((base : ℚ) * streakMult)
        { p with lastCorrect := true, streak := streak, delta := delta,
                 score := p.score + delta }
      else
        { p with lastCorrect := correct, streak := 0, delta := 0 }
  | none =>
      { p with lastCorrect := correct, streak := 0, delta := 0 }

-- ── sanitizeName ────────────────────────────────────────────────────────

/-- Scan for the first `>` and return the remainder after it
(the tail consumed by one match of the regex `<[^>]*>`). -/
def splitAtGt : List Char → Option (List Char)
  | [] => none
  | c :: rest => if c = Char.ofNat 62 then some rest else splitAtGt rest

/-- The global replace of `<[^>]*>` with the empty string: at each `<`,
if a later `>` exists the whole `<...>` run is removed; an unclosed `<`
is left in place and scanning resumes after it.  Structural recursion on
a fuel argument (every step strictly shrinks the list, so fuel equal to
the length of the input never runs out). -/
def stripTagsFuel : Nat → List Char → List Char
  | 0, _ => []
  | _, [] => []
  | fuel + 1, c :: rest =>
      if c = Char.ofNat 60 then
        match splitAtGt rest with
        | some rest1 => stripTagsFuel fuel rest1
        | none => c :: stripTagsFuel fuel rest
      else c :: stripTagsFuel fuel rest

def stripTags (l : List Char) : List Char :=
  stripTagsFuel l.length l

/-- The character class `[\w\s\-'.!]` kept by the second replace
(JS `\w` is ASCII letters, digits and underscore; `\s` is whitespace,
modelled with `Char.isWhitespace`; code point 39 is the apostrophe). -/
def allowedChar (c : Char) : Bool :=
  c.isAlpha || c.isDigit || c = Char.ofNat 95 || c.isWhitespace ||
  c = Char.ofNat 45 || c = Char.ofNat 39 || c = Char.ofNat 46 || c = Char.ofNat 33

/-- JS `String.prototype.trim`: drop whitespace from both ends. -/
def trimChars (l : List Char) : List Char :=
  ((l.dropWhile Char.isWhitespace).reverse.dropWhile Char.isWhitespace).reverse

/-- `sanitizeName` from GameRoom.ts: strip HTML-ish tags, keep only the
safe character class, truncate to 24, trim surrounding whitespace. -/
def sanitizeName (name : String) : String :=
  String.mk (trimChars (((stripTags name.toList).filter allowedChar).take 24))

-- ── Round close (endRound) ──────────────────────────────────────────────

/-- `endRound` (GameRoom.ts lines 545-623): score every player, build the
reveal statistics, broadcast `question:reveal`, clear the round, notify
the host it may advance.  In the source `state.questions[state.currentIndex]`
is read unchecked; a round is only ever opened at a valid index, so the
out-of-range case (where the source would throw) is modelled as leaving
the state unchanged. -/
def endRound (state : GameState) : GameState × List Emit :=
  match state.round with
  | none => (state, [])
  | some rd =>
      match questionAt state with
      | none => (state, [])
      | some q =>
          let players := state.players.map (fun kv => (kv.1, scorePlayer q rd.endMs kv.2))
          let st1 : GameState := { state with players := players }
          let vals := avalues players
          let counts : List Nat :=
            q.options.map (fun opt =>
              (vals.filter (fun p => p.selectedOptionId = some opt.id)).length)
          let playerChoices : List (String × List String) :=
            q.options.map (fun opt =>
              (opt.id, (vals.filter (fun p => p.selectedOptionId = some opt.id)).map Player.name))
          let totalAnswered := (vals.filter (fun p => p.selectedOptionId.isSome)).length
          let correctAnswered := (vals.filter (fun p => p.lastCorrect)).length
          let percentCorrect : Int :=
            if 0 < totalAnswered then
              round (((correctAnswered : ℚ) / (totalAnswered : ℚ)) * 100)
            else 0
          let fastestName : Option String :=
            (vals.foldl (fun (acc : Option String × Option Int) p =>
                match p.answeredAtMs with
                | some t =>
                    if p.lastCorrect && (match acc.2 with
                        | some m => decide (t < m)
                        | none => true) then
                      (some p.name, some t)
                    else acc
                | none => acc) (none, none)).1
          let leaderboard := getLeaderboard st1
          let st2 : GameState := { st1 with round := none }
          (st2,
            ⟨Target.all, Msg.questionReveal q.correctOptionIds state.currentIndex
                state.questions.length leaderboard counts playerChoices percentCorrect
                fastestName⟩ :: toHost st2 Msg.hostCanAdvance)

/-- `endGame` (GameRoom.ts lines 625-632): broadcast `game:over` with the
final leaderboard, schedule the 60-second cleanup alarm, set
`started := false`. -/
def endGame (state : GameState) (now : Int) : Room × List Emit :=
  let leaderboard := getLeaderboard state
  let st1 : GameState := { state with started := false }
  ({ gs := some st1, alarmAt := some (now + 60000) },
   [⟨Target.all, Msg.gameOver leaderboard⟩])

/-- The per-player reset at the top of a round (GameRoom.ts lines 513-518). -/
def resetRoundFields (p : Player) : Player :=
  { p with answeredAtMs := none, selectedOptionId := none, lastCorrect := false, delta := 0 }

/-- `startQuestion` (GameRoom.ts lines 500-543): advance `currentIndex`;
past the last question fall through to `endGame`; otherwise reset every
per-round player field, open a fresh round awaiting every connected
player tag, schedule the round-end alarm and broadcast the safe
(correct-answers-stripped) question payload. -/
def startQuestion (r : Room) (state : GameState) (now : Int)
    (imageData : Option String) : Room × List Emit :=
  let st1 : GameState := { state with currentIndex := state.currentIndex + 1 }
  if (st1.questions.length : Int) ≤ st1.currentIndex then
    endGame st1 now
  else
    match questionAt st1 with
    | none => (r, [])
    | some q =>
        let startMs := now
        let endMs := now + q.timeLimitSeconds * 1000
        let players := st1.players.map (fun kv => (kv.1, resetRoundFields kv.2))
        let st2 : GameState :=
          { st1 with
            players := players,
            paused := false,
            round := some ⟨startMs, endMs, akeys players, none⟩ }
        let safeQ : SafeQuestion :=
          ⟨q.id, st2.currentIndex, st2.questions.length, q.text, q.imageUrl, imageData,
           q.timeLimitSeconds, q.options⟩
        ({ gs := some st2, alarmAt := some endMs },
         [⟨Target.all, Msg.questionShow safeQ⟩])

-- ── Event handlers ──────────────────────────────────────────────────────

/-- `onHostStart`: only the host tag, only before the game has started. -/
def onHostStart (r : Room) (state : GameState) (wsTag : String) (now : Int)
    (imageData : Option String) : Room × List Emit :=
  if wsTag ≠ "host" ∨ state.started then (r, [])
  else
    let st1 : GameState := { state with started := true }
    let res := startQuestion { r with gs := some st1 } st1 now imageData
    (res.1, ⟨Target.all, Msg.gameStarted st1.title⟩ :: res.2)

/-- `onHostPause`: capture the remaining time, cancel the alarm. -/
def onHostPause (r : Room) (state : GameState) (wsTag : String) (now : Int) :
    Room × List Emit :=
  match state.round with
  | none => (r, [])
  | some rd =>
      if wsTag ≠ "host" ∨ state.paused then (r, [])
      else
        let msRemaining := max 0 (rd.endMs - now)
        let st1 : GameState :=
          { state with paused := true, round := some { rd with msRemaining := some msRemaining } }
        ({ gs := some st1, alarmAt := none }, [⟨Target.all, Msg.gamePaused msRemaining⟩])

/-- `onHostResume`: recompute the round end from the captured remainder,
reschedule the alarm. -/
def onHostResume (r : Room) (state : GameState) (wsTag : String) (now : Int) :
    Room × List Emit :=
  match state.round with
  | none => (r, [])
  | some rd =>
      if wsTag ≠ "host" ∨ state.paused = false then (r, [])
      else
        let msRemaining := rd.msRemaining.getD 5000
        let rd1 : RoundState := { rd with endMs := now + msRemaining, msRemaining := none }
        let st1 : GameState := { state with paused := false, round := some rd1 }
        ({ gs := some st1, alarmAt := some rd1.endMs },
         [⟨Target.all, Msg.gameResumed msRemaining⟩])

/-- `onHostNext` (GameRoom.ts lines 360-363): only a host-tag check, no
phase precondition — goes straight to `startQuestion`. -/
def onHostNext (r : Room) (state : GameState) (wsTag : String) (now : Int)
    (imageData : Option String) : Room × List Emit :=
  if wsTag ≠ "host" then (r, [])
  else startQuestion r state now imageData

/-- `player:join` payload (absent fields are `none`). -/
structure JoinPayload where
  name : Option String
  rejoinToken : Option String
deriving Repr, DecidableEq

/-- The ack sent back over the correlation id for `player:join`. -/
inductive Ack where
  | err (error : String)
  | okJoin (gameId : String) (title : String) (questionCount : Nat) (rejoinToken : String)
  | okRejoin (gameId : String) (title : String) (rejoinToken : String)
deriving Repr, DecidableEq

/-- `onPlayerJoin` (GameRoom.ts lines 365-424).  `freshToken` models the
`crypto.randomUUID()` drawn for a brand-new player.  The JS truthiness
test `if (!payload.name)` fires on a missing or empty name, and the
legacy check `disc.rejoinToken && ...` treats an empty stored token as
absent. -/
def onPlayerJoin (r : Room) (state : GameState) (wsTag : String)
    (payload : JoinPayload) (freshToken : String) : Room × List Emit × Ack :=
  if payload.name = none ∨ payload.name = some "" then (r, [], Ack.err "Name required.")
  else
    let safeName := sanitizeName (payload.name.getD "")
    if safeName = "" then (r, [], Ack.err "Invalid name.")
    else if state.started then
      match alookup state.disconnectedPlayers safeName with
      | none => (r, [], Ack.err "Game already started.")
      | some disc =>
          if disc.rejoinToken ≠ "" ∧ payload.rejoinToken ≠ some disc.rejoinToken then
            (r, [], Ack.err "Invalid rejoin credentials.")
          else
            let st1 : GameState :=
              { state with
                disconnectedPlayers := aerase state.disconnectedPlayers safeName,
                players := aupsert state.players wsTag disc }
            ({ r with gs := some st1 },
             [⟨Target.toTag wsTag, Msg.gameStarted st1.title⟩, broadcastLobby st1],
             Ack.okRejoin st1.id st1.title disc.rejoinToken)
    else if 100 ≤ state.players.length then (r, [], Ack.err "Game is full.")
    else if (avalues state.players).any (fun p => p.name = safeName) then
      (r, [], Ack.err "Name already taken.")
    else
      let p : Player := ⟨safeName, 0, none, none, false, 0, 0, freshToken⟩
      let st1 : GameState := { state with players := aupsert state.players wsTag p }
      ({ r with gs := some st1 }, [broadcastLobby st1],
       Ack.okJoin st1.id st1.title st1.questions.length freshToken)

/-- `player:answer` payload. -/
structure AnswerPayload where
  questionId : Option String
  optionId : Option String
deriving Repr, DecidableEq

/-- `onPlayerAnswer` (GameRoom.ts lines 426-462): guards in source order
(round open and not paused, sender is a player, question id matches the
current question, not already answered, option id truthy and belongs to
the question), then record the answer, shrink the awaiting set, confirm
the lock, report progress to the host, and close the round at once when
the awaiting set empties (cancelling the alarm). -/
def onPlayerAnswer (r : Room) (state : GameState) (wsTag : String)
    (payload : AnswerPayload) (now : Int) : Room × List Emit :=
  match state.round with
  | none => (r, [])
  | some rd =>
      if state.paused then (r, [])
      else
        match alookup state.players wsTag with
        | none => (r, [])
        | some p =>
            match questionAt state with
            | none => (r, [])
            | some q =>
                if payload.questionId ≠ some q.id then (r, [])
                else if p.selectedOptionId ≠ none then (r, [])
                else
                  match payload.optionId with
                  | none => (r, [])
                  | some oid =>
                      if oid = "" ∨ (q.options.any (fun opt => opt.id = oid)) = false then
                        (r, [])
                      else
                        let p1 : Player :=
                          { p with selectedOptionId := some oid, answeredAtMs := some now }
                        let players := aupsert state.players wsTag p1
                        let rd1 : RoundState :=
                          { rd with awaiting := rd.awaiting.filter (fun t => t ≠ wsTag) }
                        let st1 : GameState := { state with players := players, round := some rd1 }
                        let answeredCount :=
                          ((avalues players).filter (fun pl => pl.selectedOptionId.isSome)).length
                        let msgs := ⟨Target.toTag wsTag, Msg.playerLocked payload.optionId⟩
                          :: toHost st1 (Msg.roundProgress answeredCount players.length)
                        if rd1.awaiting = [] then
                          let res := endRound st1
                          ({ gs := some res.1, alarmAt := none }, msgs ++ res.2)
                        else
                          ({ r with gs := some st1 }, msgs)

/-- `webSocketClose` (GameRoom.ts lines 270-306): a host disconnect tears
the room down (broadcast `game:cancelled`, `deleteAll`); a player
disconnect after game start snapshots the player under their name for
rejoin, removes them from `players` and from the awaiting set, and when
an active round has no players left cancels the alarm and drops the
round.  (`storage.deleteAll` does not clear the alarm, so the host
branch leaves `alarmAt` untouched.) -/
def webSocketClose (r : Room) (wsTag : String) : Room × List Emit :=
  match r.gs with
  | none => (r, [])
  | some state =>
      if wsTag = "host" then
        ({ gs := none, alarmAt := r.alarmAt },
         [⟨Target.all, Msg.gameCancelled "Host disconnected"⟩])
      else
        match alookup state.players wsTag with
        | none => (r, [])
        | some player =>
            let st1 : GameState :=
              if state.started then
                { state with
                  disconnectedPlayers := aupsert state.disconnectedPlayers player.name player }
              else state
            let st2 : GameState := { st1 with players := aerase st1.players wsTag }
            let st3 : GameState :=
              match st2.round with
              | some rd =>
                  { st2 with round := some { rd with awaiting := rd.awaiting.filter (fun t => t ≠ wsTag) } }
              | none => st2
            let msgs := [broadcastLobby st3]
            if st3.round.isSome ∧ st3.players = [] then
              ({ gs := some { st3 with round := none }, alarmAt := none }, msgs)
            else
              ({ gs := some st3, alarmAt := r.alarmAt }, msgs)

/-- `alarm` (GameRoom.ts lines 314-327): with no state, nothing; with no
open round, treat the firing as the post-game cleanup signal and purge
everything; while paused, ignore the stale firing; otherwise close the
round.  (The platform consumes the scheduled alarm before invoking the
handler; the handler itself touches the schedule in none of its
branches, so `alarmAt` models only what the handler does.) -/
def alarm (r : Room) : Room × List Emit :=
  match r.gs with
  | none => (r, [])
  | some state =>
      match state.round with
      | none => ({ gs := none, alarmAt := r.alarmAt }, [])
      | some _ =>
          if state.paused then (r, [])
          else
            let res := endRound state
            ({ r with gs := some res.1 }, res.2)

/-- Response of the non-WebSocket status branch of `fetch`
(GameRoom.ts lines 193-198). -/
inductive StatusResp where
  | notFound
  | alreadyStarted
  | ok (title : String)
deriving Repr, DecidableEq

/-- The `GET /api/exists/:id` status check: no stored state means the
room does not exist. -/
def statusCheck (r : Room) : StatusResp :=
  match r.gs with
  | none => StatusResp.notFound
  | some state =>
      if state.started then StatusResp.alreadyStarted else StatusResp.ok state.title

-- ── Concrete fixtures for witnesses and counterexamples ─────────────────

/-- A 20-second question whose only correct option is `b`. -/
def qFix : QuizQuestion :=
  ⟨"q1", "2 plus 2", none, 20, [⟨"a", "3"⟩, ⟨"b", "4"⟩], ["b"], 0⟩

/-- A player who picked option `b` at time `t` carrying streak `st` into the round. -/
def pFix (st : Nat) (t : Int) : Player :=
  ⟨"Al", 0, some t, some "b", false, 0, st, "tk"⟩

/-- A round over `qFix` that started at 0 and ends at 20000, nobody awaited. -/
def rdFix : RoundState := ⟨0, 20000, [], none⟩

/-- A mid-round state over `qFix` with one player. -/
def stFix : GameState :=
  ⟨"g", "T", [qFix], [("player-1", pFix 0 0)], [], true, false, 0, some rdFix,
   some "host", "sec"⟩

/-- A state mid-game (started, questions left) whose round has already
closed — the Reveal phase. -/
def stFixNoRound : GameState :=
  ⟨"g", "T", [qFix, qFix], [("player-1", pFix 0 0)], [], true, false, 0, none,
   some "host", "sec"⟩

/-- A paused round. -/
def stFixPaused : GameState :=
  ⟨"g", "T", [qFix], [("player-1", ⟨"Al", 0, none, none, false, 0, 0, "tk"⟩)], [],
   true, true, 0, some ⟨0, 20000, ["player-1"], some 5000⟩, some "host", "sec"⟩

-- ── Claims ──────────────────────────────────────────────────────────────

/-- C1: when a round closes, every player who answered correctly has
their streak incremented and earns `delta = floor(base * multiplier)`
added to their cumulative score, with
`base = floor(500 + 500 * max(0, endMs - answeredAtMs) / (timeLimitSeconds * 1000))`
and `multiplier = min(1.5, 1 + (streak - 1) * 0.1)` once the incremented
streak reaches 2 and `1` otherwise; every incorrect or unanswered player
gets `delta = 0` and streak reset to 0.  Concretely over a 20-second
question: answering at t = 0 with streak going to 1 yields 1000,
answering at t = 20s yields 500, streak going to 3 yields the times-1.2
multiplier (1200 from a base of 1000) and streak going to 10 caps the
multiplier at exactly 1.5 (1500 from a base of 1000). -/
theorem C1_round_scoring :
    (∀ state rd q, state.round = some rd → questionAt state = some q →
        (endRound state).1.players =
          state.players.map (fun kv => (kv.1, scorePlayer q rd.endMs kv.2)))
    ∧ (∀ q endMs p oid t, p.selectedOptionId = some oid →
        q.correctOptionIds.contains oid = true → p.answeredAtMs = some t →
        (scorePlayer q endMs p).streak = p.streak + 1 ∧
        (scorePlayer q endMs p).delta =
          Int.floor
            ((Int.floor ((500 : ℚ) + 500 *
                (((max 0 (endMs - t) : Int) : ℚ) / ((q.timeLimitSeconds : ℚ) * 1000))) : ℚ) *
              (if 2 ≤ p.streak + 1 then
                  min ((3 : ℚ)/2) (1 + (((p.streak + 1 : Nat) : ℚ) - 1) * ((1 : ℚ)/10))
                else 1)) ∧
        (scorePlayer q endMs p).score = p.score + (scorePlayer q endMs p).delta)
    ∧ (∀ q endMs p, (p.selectedOptionId = none ∨
          (∀ oid, p.selectedOptionId = some oid → q.correctOptionIds.contains oid = false)) →
        (scorePlayer q endMs p).delta = 0 ∧ (scorePlayer q endMs p).streak = 0 ∧
        (scorePlayer q endMs p).score = p.score)
    ∧ (scorePlayer qFix 20000 (pFix 0 0)).delta = 1000
    ∧ (scorePlayer qFix 20000 (pFix 0 20000)).delta = 500
    ∧ (scorePlayer qFix 20000 (pFix 2 0)).delta = 1200
    ∧ (scorePlayer qFix 20000 (pFix 9 0)).delta = 1500 := by
  refine ⟨?_, ?_, ?_, ?_, ?_, ?_, ?_⟩
  · intro state rd q hr hq
    simp only [endRound, hr, hq]
  · intro q endMs p oid t hs hc ha
    simp only [scorePlayer, hs, ha, hc]
    refine ⟨?_, ?_, ?_⟩ <;> trivial
  · intro q endMs p h
    cases ha : p.answeredAtMs with
    | none => simp only [scorePlayer, ha]; refine ⟨?_, ?_, ?_⟩ <;> trivial
    | some t =>
        cases h with
        | inl hs => simp only [scorePlayer, hs, ha]; refine ⟨?_, ?_, ?_⟩ <;> trivial
        | inr hw =>
            cases hs : p.selectedOptionId with
            | none => simp only [scorePlayer, hs, ha]; refine ⟨?_, ?_, ?_⟩ <;> trivial
            | some oid =>
                simp only [scorePlayer, hs, ha, hw oid hs]
                refine ⟨?_, ?_, ?_⟩ <;> trivial
  · norm_num [scorePlayer, qFix, pFix]
  · norm_num [scorePlayer, qFix, pFix]
  · norm_num [scorePlayer, qFix, pFix]
  · norm_num [scorePlayer, qFix, pFix]

/-- C1 witness: the theorem applied at concrete inputs — the round map
over `stFix` and the incremented streak of a correct answer. -/
theorem C1_round_scoring_witness :
    (endRound stFix).1.players =
      stFix.players.map (fun kv => (kv.1, scorePlayer qFix 20000 kv.2)) ∧
    (scorePlayer qFix 20000 (pFix 0 0)).streak = 1 ∧
    (scorePlayer qFix 20000 (⟨"Bea", 7, some 0, some "a", false, 0, 3, "t2"⟩ : Player)).streak = 0 := by
  refine ⟨C1_round_scoring.1 stFix rdFix qFix (by decide) (by decide), ?_, ?_⟩
  · exact (C1_round_scoring.2.1 qFix 20000 (pFix 0 0) "b" 0 (by decide) (by decide) (by decide)).1
  · exact (C1_round_scoring.2.2.1 qFix 20000 _
      (Or.inr (by intro oid h; cases h; decide))).2.1

/-- C2: the claim states that an alarm firing in any phase it does not
match is a no-op; the code only ignores the firing while the round is
paused.  When no round is open — even with the game still in progress,
as after an early round close — the handler purges all persisted state
(the post-game cleanup branch).  This counterexample exhibits such a
state, on which the alarm handler is not a no-op. -/
theorem C2_stale_alarm_counterexample :
    stFixNoRound.started = true ∧ stFixNoRound.round = none ∧
    alarm ⟨some stFixNoRound, none⟩ ≠ (⟨some stFixNoRound, none⟩, []) ∧
    (alarm ⟨some stFixNoRound, none⟩).1.gs = none := by
  decide

/-- C2 amended: a stale alarm firing while the round is paused is
ignored (state, schedule and outbound traffic unchanged); an alarm
firing with no open round purges all persisted state — the post-game
cleanup — even if the game is still in progress, after which the status
check reports the room as not found. -/
theorem C2_stale_alarm_amended :
    (∀ r state rd, r.gs = some state → state.round = some rd → state.paused = true →
        alarm r = (r, []))
    ∧ (∀ r state, r.gs = some state → state.round = none →
        (alarm r).1.gs = none ∧ (alarm r).2 = [] ∧
        statusCheck (alarm r).1 = StatusResp.notFound) := by
  constructor
  · intro r state rd hg hr hp
    simp only [alarm, hg, hr, hp]
    rfl
  · intro r state hg hr
    simp only [alarm, hg, hr, statusCheck]
    refine ⟨?_, ?_, ?_⟩ <;> trivial

/-- C2 witness: the amended theorem applied to a paused round and to the
no-round cleanup state. -/
theorem C2_stale_alarm_amended_witness :
    alarm ⟨some stFixPaused, none⟩ = (⟨some stFixPaused, none⟩, []) ∧
    statusCheck (alarm ⟨some stFixNoRound, none⟩).1 = StatusResp.notFound := by
  constructor
  · exact C2_stale_alarm_amended.1 ⟨some stFixPaused, none⟩ stFixPaused
      ⟨0, 20000, ["player-1"], some 5000⟩ rfl (by decide) (by decide)
  · exact (C2_stale_alarm_amended.2 ⟨some stFixNoRound, none⟩ stFixNoRound rfl
      (by decide)).2.2

/-- The state left behind by `endGame` on `stFixNoRound`. -/
def stAfterGame : GameState := { stFixNoRound with started := false }

/-- C3 counterexample: the claim says that after `game:over` every
subsequent `player:join` is blocked and adds no player.  `endGame` sets
`started := false`, which routes a later `player:join` into the lobby
branch: a fresh valid name is accepted (`okJoin`) and a new player is
added to the room. -/
theorem C3_post_game_join_counterexample :
    (endGame stFixNoRound 1000).1.gs = some stAfterGame ∧
    ((onPlayerJoin ⟨some stAfterGame, some 61000⟩ stAfterGame "player-9"
        ⟨some "Zoe", none⟩ "ft").2.2 = Ack.okJoin "g" "T" 2 "ft") ∧
    ((onPlayerJoin ⟨some stAfterGame, some 61000⟩ stAfterGame "player-9"
        ⟨some "Zoe", none⟩ "ft").1.gs.map (fun st => (avalues st.players).map Player.name))
      = some ["Al", "Zoe"] := by
  decide

/-- C3 amended: ending the game broadcasts `game:over` with the final
leaderboard, marks the room no-longer-started and schedules the cleanup
alarm 60 seconds out.  This blocks `player:answer` (no round is open)
and blocks rejoins of disconnected players (the rejoin path requires
`started`), and no join ever changes an existing player entry — but a
`player:join` with a fresh valid name is accepted as a brand-new
player rather than being blocked. -/
theorem C3_post_game_amended :
    (∀ state now, (endGame state now).1 =
        ⟨some { state with started := false }, some (now + 60000)⟩ ∧
      (endGame state now).2 = [⟨Target.all, Msg.gameOver (getLeaderboard state)⟩])
    ∧ (∀ r state tag pay now, state.round = none →
        onPlayerAnswer r state tag pay now = (r, []))
    ∧ (∀ r state tag pay ft g ti tok, state.started = false →
        (onPlayerJoin r state tag pay ft).2.2 ≠ Ack.okRejoin g ti tok)
    ∧ (∀ r state tag pay ft st1 t p, state.started = false → r.gs = some state →
        t ≠ tag → alookup state.players t = some p →
        (onPlayerJoin r state tag pay ft).1.gs = some st1 →
        alookup st1.players t = some p) := by
  refine ⟨?_, ?_, ?_, ?_⟩
  · intro state now
    exact ⟨rfl, rfl⟩
  · intro r state tag pay now h
    simp only [onPlayerAnswer, h]
  · intro r state tag pay ft g ti tok h
    simp only [onPlayerJoin, h]
    split_ifs <;> simp_all
  · intro r state tag pay ft st1 t p hs hg ht hl hres
    simp only [onPlayerJoin, hs] at hres
    split_ifs at hres <;> simp_all
    · rw [← hres, alookup_aupsert_ne state.players tag t _ ht]
      exact hl

/-- The state after the post-game join of `Zoe` in the counterexample. -/
def stZoe : GameState :=
  { stAfterGame with
    players := aupsert stAfterGame.players "player-9" ⟨"Zoe", 0, none, none, false, 0, 0, "ft"⟩ }

/-- C3 witness: the amended theorem applied at concrete inputs — the
post-game room of the counterexample state, a blocked answer, a join
that is not a rejoin, and the untouched existing player entry. -/
theorem C3_post_game_amended_witness :
    (endGame stFixNoRound 1000).1 = ⟨some stAfterGame, some 61000⟩ ∧
    onPlayerAnswer ⟨some stAfterGame, none⟩ stAfterGame "player-1" ⟨some "q1", some "b"⟩ 5
      = (⟨some stAfterGame, none⟩, []) ∧
    (onPlayerJoin ⟨some stAfterGame, none⟩ stAfterGame "player-9" ⟨some "Zoe", none⟩ "ft").2.2
      ≠ Ack.okRejoin "g" "T" "tk" ∧
    alookup stZoe.players "player-1" = some (pFix 0 0) := by
  refine ⟨(C3_post_game_amended.1 stFixNoRound 1000).1, ?_, ?_, ?_⟩
  · exact C3_post_game_amended.2.1 _ stAfterGame "player-1" _ 5 (by decide)
  · exact C3_post_game_amended.2.2.1 _ stAfterGame "player-9" _ "ft" "g" "T" "tk" (by decide)
  · exact C3_post_game_amended.2.2.2 ⟨some stAfterGame, none⟩ stAfterGame "player-9"
      ⟨some "Zoe", none⟩ "ft" stZoe "player-1" (pFix 0 0) (by decide) (by decide)
      (by decide) (by decide) (by decide)

/-- Master guard lemma for `onPlayerAnswer`: whenever the acceptance
path is impossible, the handler returns the room unchanged with no
outbound traffic. -/
theorem answer_noop (r : Room) (state : GameState) (tag : String)
    (pay : AnswerPayload) (now : Int)
    (h : ∀ rd p q oid, state.round = some rd → state.paused = false →
      alookup state.players tag = some p → questionAt state = some q →
      pay.questionId = some q.id → p.selectedOptionId = none →
      pay.optionId = some oid → oid ≠ "" →
      (q.options.any (fun opt => opt.id = oid)) = true → False) :
    onPlayerAnswer r state tag pay now = (r, []) := by
  unfold onPlayerAnswer
  split
  · rfl
  · rename_i rd hrd
    split_ifs with hpaused
    · rfl
    · split
      · rfl
      · rename_i p hp
        split
        · rfl
        · rename_i q hq
          split_ifs with hqid hsel
          · rfl
          · rfl
          · split
            · rfl
            · rename_i oid hoid
              split_ifs with hopt
              · rfl
              · exfalso
                push_neg at hqid hopt
                exact h rd p q oid hrd (by simpa using hpaused) hp hq hqid
                  (by simpa using hsel) hoid hopt.1 (by simpa using hopt.2)

/-- A mid-round state over `qFix` where the single player has not yet
answered and is the only tag awaited. -/
def stAns : GameState :=
  ⟨"g", "T", [qFix], [("player-1", ⟨"Al", 0, none, none, false, 0, 0, "tk"⟩)], [],
   true, false, 0, some ⟨0, 20000, ["player-1"], none⟩, some "host", "sec"⟩

/-- C4: a `player:answer` event leaves the room state (and outbound
traffic) entirely unchanged unless a round is open and not paused, the
referenced question id matches the currently open question, the sending
player has not already answered this round, and the option id belongs
to the current question's option set; in particular a duplicate answer
after a lock is a no-op, with score and delta unchanged. -/
theorem C4_answer_ignored_unless_valid :
    (∀ r state tag pay now, state.round = none →
        onPlayerAnswer r state tag pay now = (r, []))
    ∧ (∀ r state tag pay now, state.paused = true →
        onPlayerAnswer r state tag pay now = (r, []))
    ∧ (∀ r state tag pay now q, questionAt state = some q → pay.questionId ≠ some q.id →
        onPlayerAnswer r state tag pay now = (r, []))
    ∧ (∀ r state tag pay now p oid, alookup state.players tag = some p →
        p.selectedOptionId = some oid →
        onPlayerAnswer r state tag pay now = (r, []))
    ∧ (∀ r state tag pay now q oid, questionAt state = some q → pay.optionId = some oid →
        (q.options.any (fun opt => opt.id = oid)) = false →
        onPlayerAnswer r state tag pay now = (r, [])) := by
  refine ⟨?_, ?_, ?_, ?_, ?_⟩
  · intro r state tag pay now h
    refine answer_noop r state tag pay now ?_
    intro rd p q oid h1 _ _ _ _ _ _ _ _
    rw [h] at h1
    cases h1
  · intro r state tag pay now h
    refine answer_noop r state tag pay now ?_
    intro rd p q oid _ h2 _ _ _ _ _ _ _
    rw [h] at h2
    cases h2
  · intro r state tag pay now q hq hne
    refine answer_noop r state tag pay now ?_
    intro rd p q1 oid _ _ _ hq1 hqid _ _ _ _
    rw [hq] at hq1
    cases hq1
    exact hne hqid
  · intro r state tag pay now p oid hp hsel
    refine answer_noop r state tag pay now ?_
    intro rd p1 q oid1 _ _ hp1 _ _ hsel1 _ _ _
    rw [hp] at hp1
    cases hp1
    rw [hsel] at hsel1
    cases hsel1
  · intro r state tag pay now q oid hq hoid hfalse
    refine answer_noop r state tag pay now ?_
    intro rd p q1 oid1 _ _ _ hq1 _ _ hoid1 _ hin
    rw [hq] at hq1
    cases hq1
    rw [hoid] at hoid1
    cases hoid1
    rw [hfalse] at hin
    cases hin

/-- C4 witness: the theorem applied at concrete inputs — a closed round,
a paused round, a stale question id, a duplicate answer after a lock and
a foreign option id are all no-ops. -/
theorem C4_answer_ignored_unless_valid_witness :
    onPlayerAnswer ⟨some stFixNoRound, none⟩ stFixNoRound "player-1" ⟨some "q1", some "b"⟩ 5
      = (⟨some stFixNoRound, none⟩, []) ∧
    onPlayerAnswer ⟨some stFixPaused, none⟩ stFixPaused "player-1" ⟨some "q1", some "b"⟩ 5
      = (⟨some stFixPaused, none⟩, []) ∧
    onPlayerAnswer ⟨some stFix, some 20000⟩ stFix "player-1" ⟨some "zzz", some "b"⟩ 5
      = (⟨some stFix, some 20000⟩, []) ∧
    onPlayerAnswer ⟨some stFix, some 20000⟩ stFix "player-1" ⟨some "q1", some "a"⟩ 5
      = (⟨some stFix, some 20000⟩, []) ∧
    onPlayerAnswer ⟨some stAns, some 20000⟩ stAns "player-1" ⟨some "q1", some "zzz"⟩ 5
      = (⟨some stAns, some 20000⟩, []) := by
  refine ⟨?_, ?_, ?_, ?_, ?_⟩
  · exact C4_answer_ignored_unless_valid.1 _ _ _ _ _ (by decide)
  · exact C4_answer_ignored_unless_valid.2.1 _ _ _ _ _ (by decide)
  · exact C4_answer_ignored_unless_valid.2.2.1 _ _ _ _ _ qFix (by decide) (by decide)
  · exact C4_answer_ignored_unless_valid.2.2.2.1 _ _ _ _ _ (pFix 0 0) "b" (by decide) (by decide)
  · exact C4_answer_ignored_unless_valid.2.2.2.2 _ _ _ _ _ qFix "zzz" (by decide) (by decide)
      (by decide)

/-- The state produced by an accepted answer, before the early-close
check: the player record carries the locked option and timestamp, and
the answering tag is removed from the awaiting set. -/
def answeredState (state : GameState) (tag : String) (p : Player) (rd : RoundState)
    (oid : String) (now : Int) : GameState :=
  { state with
    players := aupsert state.players tag
      { p with selectedOptionId := some oid, answeredAtMs := some now },
    round := some { rd with awaiting := rd.awaiting.filter (fun t => t ≠ tag) } }

/-- The lock confirmation to the answering player plus the progress
report to the host, as emitted by an accepted answer. -/
def lockEmits (state1 : GameState) (tag : String) (optId : Option String) : List Emit :=
  ⟨Target.toTag tag, Msg.playerLocked optId⟩ ::
    toHost state1 (Msg.roundProgress
      ((avalues state1.players).filter (fun pl => pl.selectedOptionId.isSome)).length
      state1.players.length)

/-- Closing an open round at a valid question always clears the round. -/
theorem endRound_round_none (state : GameState) (rd : RoundState) (q : QuizQuestion)
    (hr : state.round = some rd) (hq : questionAt state = some q) :
    (endRound state).1.round = none := by
  simp only [endRound, hr, hq]

/-- C5: when an accepted `player:answer` empties the awaiting set, the
round ends in the same event: the scheduled alarm is cancelled, the
stored state is the scored round-closed state produced by `endRound`,
and the reveal traffic follows the lock/progress messages — without
waiting for the timer. -/
theorem C5_last_answer_closes_round :
    ∀ r state tag pay now rd p q oid,
      state.round = some rd → state.paused = false →
      alookup state.players tag = some p → questionAt state = some q →
      pay.questionId = some q.id → p.selectedOptionId = none →
      pay.optionId = some oid → oid ≠ "" →
      (q.options.any (fun opt => opt.id = oid)) = true →
      rd.awaiting.filter (fun t => t ≠ tag) = [] →
      onPlayerAnswer r state tag pay now =
        ({ gs := some (endRound (answeredState state tag p rd oid now)).1, alarmAt := none },
          lockEmits (answeredState state tag p rd oid now) tag pay.optionId
            ++ (endRound (answeredState state tag p rd oid now)).2) ∧
      (endRound (answeredState state tag p rd oid now)).1.round = none := by
  intro r state tag pay now rd p q oid hr hpa hp hq hqid hsel hoid hne hin hempty
  constructor
  · simp only [ne_eq, decide_not] at hempty
    simp only [onPlayerAnswer, hr, hp, hq, hqid, hsel, hoid]
    simp [answeredState, lockEmits, hpa, hempty, hne, hin]
  · have hq1 : questionAt (answeredState state tag p rd oid now) = some q := by
      simpa [answeredState, questionAt] using hq
    exact endRound_round_none _ _ q rfl hq1

/-- C5 witness: the theorem applied to `stAns`, whose only player is the
last awaited tag: the answer closes and scores the round at once. -/
theorem C5_last_answer_closes_round_witness :
    onPlayerAnswer ⟨some stAns, some 20000⟩ stAns "player-1" ⟨some "q1", some "b"⟩ 5000
      = ({ gs := some (endRound (answeredState stAns "player-1"
              ⟨"Al", 0, none, none, false, 0, 0, "tk"⟩ ⟨0, 20000, ["player-1"], none⟩
              "b" 5000)).1, alarmAt := none },
          lockEmits (answeredState stAns "player-1"
              ⟨"Al", 0, none, none, false, 0, 0, "tk"⟩ ⟨0, 20000, ["player-1"], none⟩
              "b" 5000) "player-1" (some "b")
            ++ (endRound (answeredState stAns "player-1"
              ⟨"Al", 0, none, none, false, 0, 0, "tk"⟩ ⟨0, 20000, ["player-1"], none⟩
              "b" 5000)).2) ∧
    (endRound (answeredState stAns "player-1"
        ⟨"Al", 0, none, none, false, 0, 0, "tk"⟩ ⟨0, 20000, ["player-1"], none⟩
        "b" 5000)).1.round = none := by
  exact C5_last_answer_closes_round ⟨some stAns, some 20000⟩ stAns "player-1"
    ⟨some "q1", some "b"⟩ 5000 ⟨0, 20000, ["player-1"], none⟩
    ⟨"Al", 0, none, none, false, 0, 0, "tk"⟩ qFix "b"
    (by decide) (by decide) (by decide) (by decide) (by decide) (by decide)
    (by decide) (by decide) (by decide) (by decide)

/-- A lobby-phase state (not started, no round). -/
def stLobby : GameState :=
  ⟨"g", "T", [qFix], [("player-1", ⟨"Al", 0, none, none, false, 0, 0, "tk"⟩)], [],
   false, false, -1, none, some "host", "sec"⟩

/-- C6: in every phase — whatever the stored state — a disconnect of the
host tag immediately broadcasts `game:cancelled` to all remaining
connections and deletes all persisted state, so that a subsequent
status check reports the room as not found. -/
theorem C6_host_disconnect_teardown :
    ∀ r state, r.gs = some state →
      webSocketClose r "host" =
        (⟨none, r.alarmAt⟩, [⟨Target.all, Msg.gameCancelled "Host disconnected"⟩]) ∧
      statusCheck (webSocketClose r "host").1 = StatusResp.notFound := by
  intro r state hg
  have h : webSocketClose r "host" =
      (⟨none, r.alarmAt⟩, [⟨Target.all, Msg.gameCancelled "Host disconnected"⟩]) := by
    simp [webSocketClose, hg]
  exact ⟨h, by rw [h]; rfl⟩

/-- C6 witness: the theorem applied in the Lobby, RoundActive and Reveal
phases. -/
theorem C6_host_disconnect_teardown_witness :
    statusCheck (webSocketClose ⟨some stLobby, none⟩ "host").1 = StatusResp.notFound ∧
    statusCheck (webSocketClose ⟨some stFix, some 20000⟩ "host").1 = StatusResp.notFound ∧
    statusCheck (webSocketClose ⟨some stFixNoRound, none⟩ "host").1 = StatusResp.notFound := by
  exact ⟨(C6_host_disconnect_teardown ⟨some stLobby, none⟩ stLobby rfl).2,
    (C6_host_disconnect_teardown ⟨some stFix, some 20000⟩ stFix rfl).2,
    (C6_host_disconnect_teardown ⟨some stFixNoRound, none⟩ stFixNoRound rfl).2⟩

/-- C7: a player who disconnects after game start is snapshot under
their name with their tag removed; a later `player:join` with that
exact sanitized name fails when no snapshot exists, fails without
changing any state when the snapshot carries a rejoin token the request
does not match, and otherwise restores exactly the preserved record
(score and streak included) under the new tag while removing the
disconnected record. -/
theorem C7_rejoin_roundtrip :
    (∀ r state tag p, r.gs = some state → tag ≠ "host" →
        alookup state.players tag = some p → state.started = true →
        ((webSocketClose r tag).1.gs).bind
            (fun st => alookup st.disconnectedPlayers p.name) = some p ∧
        ((webSocketClose r tag).1.gs).map (fun st => alookup st.players tag) = some none)
    ∧ (∀ r state tag nm tok ft, state.started = true → nm ≠ "" → sanitizeName nm ≠ "" →
        alookup state.disconnectedPlayers (sanitizeName nm) = none →
        onPlayerJoin r state tag ⟨some nm, tok⟩ ft = (r, [], Ack.err "Game already started."))
    ∧ (∀ r state tag nm tok ft disc, state.started = true → nm ≠ "" → sanitizeName nm ≠ "" →
        alookup state.disconnectedPlayers (sanitizeName nm) = some disc →
        disc.rejoinToken ≠ "" → tok ≠ some disc.rejoinToken →
        onPlayerJoin r state tag ⟨some nm, tok⟩ ft =
          (r, [], Ack.err "Invalid rejoin credentials."))
    ∧ (∀ r state tag nm tok ft disc, state.started = true → nm ≠ "" → sanitizeName nm ≠ "" →
        alookup state.disconnectedPlayers (sanitizeName nm) = some disc →
        (disc.rejoinToken = "" ∨ tok = some disc.rejoinToken) →
        ∃ st1, (onPlayerJoin r state tag ⟨some nm, tok⟩ ft).1.gs = some st1 ∧
          (onPlayerJoin r state tag ⟨some nm, tok⟩ ft).2.2 =
            Ack.okRejoin state.id state.title disc.rejoinToken ∧
          alookup st1.players tag = some disc ∧
          alookup st1.disconnectedPlayers (sanitizeName nm) = none) := by
  refine ⟨?_, ?_, ?_, ?_⟩
  · intro r state tag p hg htag hp hst
    simp only [webSocketClose, hg, if_neg htag, hp, hst]
    cases hrnd : state.round with
    | none =>
        split_ifs <;>
          simp_all [alookup_aupsert_self, alookup_aerase_self]
    | some rd =>
        split_ifs <;>
          simp_all [alookup, alookup_aupsert_self, alookup_aerase_self]
  · intro r state tag nm tok ft hst hnm hsn hd
    simp [onPlayerJoin, hnm, hsn, hst, hd]
  · intro r state tag nm tok ft disc hst hnm hsn hd hrt htok
    simp [onPlayerJoin, hnm, hsn, hst, hd, hrt, htok]
  · intro r state tag nm tok ft disc hst hnm hsn hd hok
    refine ⟨{ state with
        disconnectedPlayers := aerase state.disconnectedPlayers (sanitizeName nm),
        players := aupsert state.players tag disc }, ?_, ?_, ?_, ?_⟩
    · have : ¬ (disc.rejoinToken ≠ "" ∧ tok ≠ some disc.rejoinToken) := by
        rcases hok with h1 | h2
        · exact fun hand => hand.1 h1
        · exact fun hand => hand.2 h2
      simp [onPlayerJoin, hnm, hsn, hst, hd, this]
    · have : ¬ (disc.rejoinToken ≠ "" ∧ tok ≠ some disc.rejoinToken) := by
        rcases hok with h1 | h2
        · exact fun hand => hand.1 h1
        · exact fun hand => hand.2 h2
      simp [onPlayerJoin, hnm, hsn, hst, hd, this]
    · exact alookup_aupsert_self state.players tag disc
    · exact alookup_aerase_self state.disconnectedPlayers (sanitizeName nm)

/-- A disconnected player with history (score 777, streak 2, token `tk`). -/
def pDisc : Player := ⟨"Al", 777, none, some "b", true, 120, 2, "tk"⟩

/-- A started room holding only the disconnected snapshot of `Al`. -/
def stDisc : GameState :=
  ⟨"g", "T", [qFix], [], [("Al", pDisc)], true, false, 0, none, some "host", "sec"⟩

/-- C7 witness: the theorem applied at concrete inputs — the disconnect
snapshot of `stFix`, a join with no snapshot, a wrong token, and the
successful restore with the exact prior record. -/
theorem C7_rejoin_roundtrip_witness :
    ((webSocketClose ⟨some stFix, some 20000⟩ "player-1").1.gs).bind
        (fun st => alookup st.disconnectedPlayers "Al") = some (pFix 0 0) ∧
    onPlayerJoin ⟨some stDisc, none⟩ stDisc "player-7" ⟨some "Bob", none⟩ "ft"
      = (⟨some stDisc, none⟩, [], Ack.err "Game already started.") ∧
    onPlayerJoin ⟨some stDisc, none⟩ stDisc "player-7" ⟨some "Al", some "bad"⟩ "ft"
      = (⟨some stDisc, none⟩, [], Ack.err "Invalid rejoin credentials.") ∧
    (onPlayerJoin ⟨some stDisc, none⟩ stDisc "player-7" ⟨some "Al", some "tk"⟩ "ft").2.2
      = Ack.okRejoin "g" "T" "tk" := by
  refine ⟨?_, ?_, ?_, ?_⟩
  · exact (C7_rejoin_roundtrip.1 ⟨some stFix, some 20000⟩ stFix "player-1" (pFix 0 0)
      rfl (by decide) (by decide) rfl).1
  · exact C7_rejoin_roundtrip.2.1 ⟨some stDisc, none⟩ stDisc "player-7" "Bob" none "ft"
      rfl (by decide) (by decide) (by decide)
  · exact C7_rejoin_roundtrip.2.2.1 ⟨some stDisc, none⟩ stDisc "player-7" "Al"
      (some "bad") "ft" pDisc rfl (by decide) (by decide) (by decide) (by decide) (by decide)
  · obtain ⟨st1, h1, h2, h3, h4⟩ := C7_rejoin_roundtrip.2.2.2 ⟨some stDisc, none⟩ stDisc
      "player-7" "Al" (some "tk") "ft" pDisc rfl (by decide) (by decide) (by decide)
      (Or.inr (by decide))
    exact h2

/-- Two questions agreeing on every field except possibly
`correctOptionIds`. -/
def sameUpToCorrect (q q1 : QuizQuestion) : Prop :=
  q1.id = q.id ∧ q1.text = q.text ∧ q1.imageUrl = q.imageUrl ∧
  q1.timeLimitSeconds = q.timeLimitSeconds ∧ q1.options = q.options ∧ q1.index = q.index

theorem forall2_get {R : QuizQuestion → QuizQuestion → Prop} :
    ∀ {l l1 : List QuizQuestion}, List.Forall₂ R l l1 → ∀ n,
      (l.get? n = none ∧ l1.get? n = none) ∨
      (∃ q q1, l.get? n = some q ∧ l1.get? n = some q1 ∧ R q q1) := by
  intro l l1 h
  induction h with
  | nil => intro n; left; simp
  | cons hR hrest ih =>
      intro n
      cases n with
      | zero => right; exact ⟨_, _, rfl, rfl, hR⟩
      | succ m => simpa using ih m

/-- C8: the `question:show` traffic emitted by a round opening never
depends on the correct-answer identifiers — for any two states that
differ only in the questions' `correctOptionIds`, the emitted messages
are identical (so the payload cannot contain the correct options). -/
theorem C8_question_show_confidential :
    ∀ (r : Room) (state : GameState) (now : Int) (img : Option String)
      (qs qs1 : List QuizQuestion), List.Forall₂ sameUpToCorrect qs qs1 →
      (startQuestion r { state with questions := qs } now img).2 =
        (startQuestion r { state with questions := qs1 } now img).2 := by
  intro r state now img qs qs1 h
  have hlen : qs.length = qs1.length := h.length_eq
  by_cases hend : (qs1.length : Int) ≤ state.currentIndex + 1
  · simp [startQuestion, hlen, hend, endGame, getLeaderboard, avalues]
  · by_cases hpos : (0 : Int) ≤ state.currentIndex + 1
    · rcases forall2_get h (state.currentIndex + 1).toNat with ⟨h1, h2⟩ | ⟨q, q1, h1, h2, hR⟩
      · simp only [List.get?_eq_getElem?] at h1 h2
        simp [startQuestion, hlen, hend, questionAt, hpos, h1, h2]
      · obtain ⟨hid, htext, himg, htl, hopts, hidx⟩ := hR
        simp only [List.get?_eq_getElem?] at h1 h2
        simp [startQuestion, hlen, hend, questionAt, hpos, h1, h2, hid, htext, himg, htl,
          hopts]
    · simp [startQuestion, hlen, hend, questionAt, hpos]

/-- The fixture question with a different correct answer. -/
def qFixAlt : QuizQuestion :=
  ⟨"q1", "2 plus 2", none, 20, [⟨"a", "3"⟩, ⟨"b", "4"⟩], ["a"], 0⟩

/-- C8 witness: the theorem applied to two concrete lobbies whose only
difference is the correct option of the first question. -/
theorem C8_question_show_confidential_witness :
    (startQuestion ⟨some stLobby, none⟩ { stLobby with questions := [qFix] } 100 none).2 =
      (startQuestion ⟨some stLobby, none⟩ { stLobby with questions := [qFixAlt] } 100 none).2 := by
  exact C8_question_show_confidential ⟨some stLobby, none⟩ stLobby 100 none [qFix] [qFixAlt]
    (List.Forall₂.cons ⟨rfl, rfl, rfl, rfl, rfl, rfl⟩ List.Forall₂.nil)

/-- C9: `host:next` checks only that the sender is the host tag.  With
no phase precondition it goes straight to `startQuestion`, so while a
round is still active it discards that round — no scoring, no reveal
broadcast, scores and streaks untouched — and opens the next question;
and in the lobby it opens the first question while `started` stays
whatever it was (false). -/
theorem C9_host_next_no_phase_check :
    (∀ r state tag now img, tag ≠ "host" → onHostNext r state tag now img = (r, []))
    ∧ (∀ r state now img, onHostNext r state "host" now img = startQuestion r state now img)
    ∧ (∀ r state now img q,
        questionAt { state with currentIndex := state.currentIndex + 1 } = some q →
        state.currentIndex + 1 < (state.questions.length : Int) →
        (onHostNext r state "host" now img).2 =
          [⟨Target.all, Msg.questionShow ⟨q.id, state.currentIndex + 1,
            state.questions.length, q.text, q.imageUrl, img, q.timeLimitSeconds,
            q.options⟩⟩] ∧
        ((onHostNext r state "host" now img).1.gs.map (fun st =>
            (st.players.map (fun kv => (kv.1, kv.2.score, kv.2.streak)),
             st.started, st.round.isSome))) =
          some (state.players.map (fun kv => (kv.1, kv.2.score, kv.2.streak)),
            state.started, true)) := by
  refine ⟨?_, ?_, ?_⟩
  · intro r state tag now img htag
    simp [onHostNext, htag]
  · intro r state now img
    simp [onHostNext]
  · intro r state now img q hq hlt
    have hend : ¬ (((state.questions.length : Int)) ≤ state.currentIndex + 1) := by omega
    constructor
    · simp [onHostNext, startQuestion, hend, hq]
    · simp [onHostNext, startQuestion, hend, hq, resetRoundFields, List.map_map,
        Function.comp]

/-- A RoundActive state with a question left to advance to. -/
def stMid : GameState := { stFix with questions := [qFix, qFix] }

/-- C9 witness: the theorem applied at concrete inputs — a non-host
sender is ignored, and a host advance during the active round of
`stMid` opens question 1 with no reveal traffic and untouched scores. -/
theorem C9_host_next_no_phase_check_witness :
    onHostNext ⟨some stFix, some 20000⟩ stFix "player-1" 5 none
      = (⟨some stFix, some 20000⟩, []) ∧
    (onHostNext ⟨some stMid, some 20000⟩ stMid "host" 25000 none).2 =
      [⟨Target.all, Msg.questionShow ⟨"q1", 1, 2, "2 plus 2", none, none, 20,
        [⟨"a", "3"⟩, ⟨"b", "4"⟩]⟩⟩] ∧
    ((onHostNext ⟨some stMid, some 20000⟩ stMid "host" 25000 none).1.gs.map (fun st =>
        (st.players.map (fun kv => (kv.1, kv.2.score, kv.2.streak)),
         st.started, st.round.isSome))) =
      some ([("player-1", 0, 0)], true, true) := by
  refine ⟨C9_host_next_no_phase_check.1 _ _ "player-1" 5 none (by decide), ?_, ?_⟩
  · exact (C9_host_next_no_phase_check.2.2 ⟨some stMid, some 20000⟩ stMid 25000 none qFix
      (by decide) (by decide)).1
  · exact (C9_host_next_no_phase_check.2.2 ⟨some stMid, some 20000⟩ stMid 25000 none qFix
      (by decide) (by decide)).2

/-- `endRound` either clears the round or (on its guard paths) returns
the state unchanged. -/
theorem endRound_round_cases (s : GameState) :
    (endRound s).1.round = none ∨ (endRound s).1 = s := by
  unfold endRound
  split
  · right; rfl
  · split
    · right; rfl
    · left; rfl

/-- C10: the awaiting set never grows once a round is open.  A rejoin
during an active round restores the preserved record wholesale — the
round (and its awaiting set) is untouched and the per-round fields
(`selectedOptionId`, `answeredAtMs`) come from the snapshot, not a
reset; a non-null carried-over `selectedOptionId` makes `player:answer`
a no-op, and is scored against the current question at the next
`endRound`.  `player:answer` and `webSocketClose` only ever filter the
awaiting set. -/
theorem C10_awaiting_never_grows :
    (∀ r state tag nm tok ft disc, state.started = true → nm ≠ "" →
        sanitizeName nm ≠ "" →
        alookup state.disconnectedPlayers (sanitizeName nm) = some disc →
        (disc.rejoinToken = "" ∨ tok = some disc.rejoinToken) →
        (onPlayerJoin r state tag ⟨some nm, tok⟩ ft).1.gs =
          some { state with
            disconnectedPlayers := aerase state.disconnectedPlayers (sanitizeName nm),
            players := aupsert state.players tag disc } ∧
        alookup (aupsert state.players tag disc) tag = some disc)
    ∧ (∀ r state tag pay now p oid, alookup state.players tag = some p →
        p.selectedOptionId = some oid →
        onPlayerAnswer r state tag pay now = (r, []))
    ∧ (∀ state rd q tag p, state.round = some rd → questionAt state = some q →
        alookup state.players tag = some p →
        alookup (endRound state).1.players tag = some (scorePlayer q rd.endMs p))
    ∧ (∀ r state tag pay now rd st1 rd1, r.gs = some state → state.round = some rd →
        (onPlayerAnswer r state tag pay now).1.gs = some st1 → st1.round = some rd1 →
        rd1.awaiting ⊆ rd.awaiting)
    ∧ (∀ r state tag st1 rd rd1, r.gs = some state → state.round = some rd →
        (webSocketClose r tag).1.gs = some st1 → st1.round = some rd1 →
        rd1.awaiting ⊆ rd.awaiting) := by
  refine ⟨?_, ?_, ?_, ?_, ?_⟩
  · intro r state tag nm tok ft disc hst hnm hsn hd hok
    have hno : ¬ (disc.rejoinToken ≠ "" ∧ tok ≠ some disc.rejoinToken) := by
      rcases hok with h1 | h2
      · exact fun hand => hand.1 h1
      · exact fun hand => hand.2 h2
    constructor
    · simp [onPlayerJoin, hnm, hsn, hst, hd, hno]
    · exact alookup_aupsert_self state.players tag disc
  · intro r state tag pay now p oid hp hsel
    refine answer_noop r state tag pay now ?_
    intro rd p1 q oid1 _ _ hp1 _ _ hsel1 _ _ _
    rw [hp] at hp1
    cases hp1
    rw [hsel] at hsel1
    cases hsel1
  · intro state rd q tag p hr hq hp
    simp only [endRound, hr, hq]
    rw [alookup_map (scorePlayer q rd.endMs) state.players tag, hp]
    rfl
  · intro r state tag pay now rd st1 rd1 hg hr hgs hrd1
    have hsame : st1 = state → rd1.awaiting ⊆ rd.awaiting := by
      intro he
      subst he
      rw [hr] at hrd1
      cases hrd1
      exact fun a ha => ha
    revert hgs
    unfold onPlayerAnswer
    split
    · intro hgs
      rw [hg] at hgs
      exact hsame (Option.some.inj hgs).symm
    · rename_i rd0 hrd0
      rw [hr] at hrd0
      cases hrd0
      split_ifs with hpaused
      · intro hgs
        rw [hg] at hgs
        exact hsame (Option.some.inj hgs).symm
      · split
        · intro hgs
          rw [hg] at hgs
          exact hsame (Option.some.inj hgs).symm
        · rename_i p hp
          split
          · intro hgs
            rw [hg] at hgs
            exact hsame (Option.some.inj hgs).symm
          · rename_i q hq
            split_ifs with hqid hsel
            · intro hgs
              rw [hg] at hgs
              exact hsame (Option.some.inj hgs).symm
            · intro hgs
              rw [hg] at hgs
              exact hsame (Option.some.inj hgs).symm
            · split
              · intro hgs
                rw [hg] at hgs
                exact hsame (Option.some.inj hgs).symm
              · rename_i oid hoid
                split_ifs with hopt
                · intro hgs
                  rw [hg] at hgs
                  exact hsame (Option.some.inj hgs).symm
                · dsimp only
                  split_ifs with hempty
                  · intro hgs
                    have hcase := endRound_round_cases
                      { state with
                        players := aupsert state.players tag
                          { p with selectedOptionId := some oid, answeredAtMs := some now },
                        round := some { rd with
                          awaiting := rd.awaiting.filter (fun t => t ≠ tag) } }
                    rcases hcase with hnone | hid
                    · exfalso
                      rw [(Option.some.inj hgs)] at hnone
                      rw [hrd1] at hnone
                      cases hnone
                    · have hst1 := Option.some.inj hgs
                      rw [hid] at hst1
                      rw [← hst1] at hrd1
                      cases Option.some.inj hrd1
                      intro a ha
                      exact List.mem_of_mem_filter ha
                  · intro hgs
                    have hst1 := Option.some.inj hgs
                    rw [← hst1] at hrd1
                    cases Option.some.inj hrd1
                    intro a ha
                    exact List.mem_of_mem_filter ha
  · intro r state tag st1 rd rd1 hg hr hgs hrd1
    by_cases hhost : tag = "host"
    · simp [webSocketClose, hg, hhost] at hgs
    · cases hlk : alookup state.players tag with
      | none =>
          simp [webSocketClose, hg, hhost, hlk] at hgs
          subst hgs
          rw [hr] at hrd1
          cases hrd1
          exact fun a ha => ha
      | some player =>
          by_cases hstart : state.started = true
          · simp [webSocketClose, hg, hhost, hlk, hr, hstart] at hgs
            split_ifs at hgs with hclean
            · obtain rfl := Option.some.inj hgs
              simp at hrd1
            · obtain rfl := Option.some.inj hgs
              cases Option.some.inj hrd1
              intro a ha
              exact List.mem_of_mem_filter ha
          · simp [webSocketClose, hg, hhost, hlk, hr, hstart] at hgs
            split_ifs at hgs with hclean
            · obtain rfl := Option.some.inj hgs
              simp at hrd1
            · obtain rfl := Option.some.inj hgs
              cases Option.some.inj hrd1
              intro a ha
              exact List.mem_of_mem_filter ha

/-- A started mid-round state holding the disconnected snapshot of `Al`
(who had already answered option `b`). -/
def stDiscRound : GameState :=
  ⟨"g", "T", [qFix], [("player-1", ⟨"Bea", 0, none, none, false, 0, 0, "t2"⟩)],
   [("Al", pDisc)], true, false, 0, some ⟨0, 20000, ["player-1"], none⟩,
   some "host", "sec"⟩

/-- The state after `Al` rejoins `stDiscRound` under tag `player-9`. -/
def stRestored : GameState :=
  { stDiscRound with
    disconnectedPlayers := aerase stDiscRound.disconnectedPlayers "Al",
    players := aupsert stDiscRound.players "player-9" pDisc }

def pAnn : Player := ⟨"Ann", 0, none, none, false, 0, 0, "t3"⟩

def pBea : Player := ⟨"Bea", 0, none, none, false, 0, 0, "t2"⟩

/-- A two-player mid-round state with both players awaited. -/
def stTwo : GameState :=
  ⟨"g", "T", [qFix], [("player-1", pAnn), ("player-2", pBea)], [], true, false, 0,
   some ⟨0, 20000, ["player-1", "player-2"], none⟩, some "host", "sec"⟩

/-- `stTwo` after `player-1` answers option `b` at 7000 ms. -/
def stTwoAns : GameState :=
  ⟨"g", "T", [qFix],
   [("player-1", ⟨"Ann", 0, some 7000, some "b", false, 0, 0, "t3"⟩), ("player-2", pBea)],
   [], true, false, 0, some ⟨0, 20000, ["player-2"], none⟩, some "host", "sec"⟩

/-- `stTwo` after `player-1` disconnects mid-round. -/
def stTwoClosed : GameState :=
  ⟨"g", "T", [qFix], [("player-2", pBea)], [("Ann", pAnn)], true, false, 0,
   some ⟨0, 20000, ["player-2"], none⟩, some "host", "sec"⟩

/-- C10 witness: the theorem applied at concrete inputs — a mid-round
rejoin leaves the round untouched and restores the snapshot fields, the
carried-over lock blocks a new answer, the carried-over answer is
scored at the next round close, and an answer or a disconnect only ever
shrinks the awaiting set. -/
theorem C10_awaiting_never_grows_witness :
    ((onPlayerJoin ⟨some stDiscRound, some 20000⟩ stDiscRound "player-9"
        ⟨some "Al", some "tk"⟩ "ft").1.gs.map GameState.round)
      = some stDiscRound.round ∧
    alookup (aupsert stDiscRound.players "player-9" pDisc) "player-9" = some pDisc ∧
    onPlayerAnswer ⟨some stRestored, some 20000⟩ stRestored "player-9"
        ⟨some "q1", some "a"⟩ 6000
      = (⟨some stRestored, some 20000⟩, []) ∧
    alookup (endRound stRestored).1.players "player-9"
      = some (scorePlayer qFix 20000 pDisc) ∧
    (["player-2"] : List String) ⊆ ["player-1", "player-2"] := by
  refine ⟨?_, ?_, ?_, ?_, ?_⟩
  · have h := (C10_awaiting_never_grows.1 ⟨some stDiscRound, some 20000⟩ stDiscRound
      "player-9" "Al" (some "tk") "ft" pDisc (by decide) (by decide) (by decide)
      (by decide) (Or.inr (by decide))).1
    rw [h]
    rfl
  · exact (C10_awaiting_never_grows.1 ⟨some stDiscRound, some 20000⟩ stDiscRound
      "player-9" "Al" (some "tk") "ft" pDisc (by decide) (by decide) (by decide)
      (by decide) (Or.inr (by decide))).2
  · exact C10_awaiting_never_grows.2.1 ⟨some stRestored, some 20000⟩ stRestored
      "player-9" ⟨some "q1", some "a"⟩ 6000 pDisc "b" (by decide) (by decide)
  · exact C10_awaiting_never_grows.2.2.1 stRestored ⟨0, 20000, ["player-1"], none⟩
      qFix "player-9" pDisc (by decide) (by decide) (by decide)
  · exact C10_awaiting_never_grows.2.2.2.1 ⟨some stTwo, some 20000⟩ stTwo "player-1"
      ⟨some "q1", some "b"⟩ 7000 ⟨0, 20000, ["player-1", "player-2"], none⟩ stTwoAns
      ⟨0, 20000, ["player-2"], none⟩ (by decide) (by decide) (by decide) (by decide)

end Questron
